import Mathlib

/-!
Shallow embedding of the SapWebb reduction pipeline (sapwebb package) and
verification of its specification claims.

Modelling conventions:
* numpy floating-point values are modelled as `Option ℚ`; `none` stands for
  NaN, the invalid-value sentinel the pipeline produces at saturated-from-the-
  start columns.  Arithmetic on `Option ℚ` propagates `none`, mirroring NaN
  propagation.
* The `err` array, which the source computes as `sqrt(var_poisson +
  var_rnoise)`, is carried as its square `errSq`; the identity
  `err = sqrt(var_poisson + var_rnoise)` holds at a pixel exactly when
  `errSq = var_poisson + var_rnoise` there (square root is injective on the
  non-negative reals, and all stored variances are non-negative sums).
* numpy arrays are modelled as total functions from indices, together with the
  shape fields of the corresponding data model.
* numpy masked-array reductions (`mean`, `count`, masked `median`) are spelled
  out over the list of unmasked samples, following the documented numpy
  semantics the source relies on.
-/

/-- JWST data-quality bit flag DO_NOT_USE (jwst dqflags, value 1). -/
def DO_NOT_USE : ℕ := 1

/-- JWST data-quality bit flag SATURATED (jwst dqflags, value 2). -/
def SATURATED : ℕ := 2

/-- JWST data-quality bit flag JUMP_DET (jwst dqflags, value 4). -/
def JUMP_DET : ℕ := 4

/-- Floating-point value: `none` is NaN, `some q` a finite value. -/
abbrev F := Option ℚ

/-- Floating-point addition; NaN propagates. -/
def fadd : F → F → F
  | some a, some b => some (a + b)
  | _, _ => none

/-- Floating-point multiplication; NaN propagates. -/
def fmul : F → F → F
  | some a, some b => some (a * b)
  | _, _ => none

/-- Floating-point division; NaN propagates, and division by zero yields the
invalid value (the pipeline only divides by zero on paths whose result is
NaN or masked-and-filled, never on a path whose finite value is used). -/
def fdiv : F → F → F
  | some a, some b => if b = 0 then none else some (a / b)
  | _, _ => none

/-- RampModel: 4-D ramp cube indexed `[integration, group, row, column]` with
shape `(n0, n1, n2, n3)`, group-level DQ flags `groupdq`, and the 2-D
pixel-level DQ map `pixeldq` indexed `[row, column]`. -/
structure RampCube where
  n0 : ℕ
  n1 : ℕ
  n2 : ℕ
  n3 : ℕ
  data : ℕ → ℕ → ℕ → ℕ → ℚ
  groupdq : ℕ → ℕ → ℕ → ℕ → ℕ
  pixeldq : ℕ → ℕ → ℕ

/-- CubeModel: 3-D rate cube indexed `[integration, row, column]` with shape
`(n0, n1, n2)`, DQ mask `dq`, variance arrays, squared error array `errSq`
(see module comment) and the auxiliary effective-group-count array `ngroup`
attached by the CDS step. -/
structure RateCube where
  n0 : ℕ
  n1 : ℕ
  n2 : ℕ
  data : ℕ → ℕ → ℕ → ℚ
  dq : ℕ → ℕ → ℕ → ℕ
  varp : ℕ → ℕ → ℕ → F
  varr : ℕ → ℕ → ℕ → F
  errSq : ℕ → ℕ → ℕ → F
  ngroup : ℕ → ℕ → ℕ → F

/-- cds_custom_step line 99-102: entry `j` of
`np.diff(groupdq[:, :, n2 // 2, :] & SATURATED, axis=1)` equals SATURATED
exactly when the mid-row pixel of column `k` is SATURATED at group `j + 1`
and not at group `j` (the unsigned subtraction wraps otherwise). -/
def satTrans (rc : RampCube) (i j k : ℕ) : Bool :=
  (rc.groupdq i (j + 1) (rc.n2 / 2) k &&& SATURATED == SATURATED) &&
    (rc.groupdq i j (rc.n2 / 2) k &&& SATURATED == 0)

/-- Whether `np.where(p == SATURATED)` yields any index `(i, j, k)` for the
given integration `i` and column `k`; `j` ranges over the `n1 - 1`
differenced groups. -/
def cdsHasTrans (rc : RampCube) (i k : ℕ) : Bool :=
  (List.range (rc.n1 - 1)).any fun j => satTrans rc i j k

/-- The loop in cds_custom_step lines 109-122 runs over `np.where` indices in
C order, so for a fixed `(i, k)` the assignment with the largest transition
index `j` is the one that survives. -/
def cdsLastJ (rc : RampCube) (i k : ℕ) : ℕ :=
  Nat.findGreatest (fun j => satTrans rc i j k = true) (rc.n1 - 2)

/-- The signal of the output cube: the default CDS
`(data[:, -1] - data[:, 0]) / (n1 - 1)` (line 105), overwritten for columns
with a saturation transition by `(data[i, j, :, k] - data[i, 0, :, k]) / norm`
with `norm = 1` if `j = 0` else `j` (lines 116, 119), and finally multiplied
by the gain map (line 124). -/
def cdsRate (rc : RampCube) (gain : ℕ → ℕ → ℚ) (i r k : ℕ) : ℚ :=
  if cdsHasTrans rc i k then
    gain r k *
      ((rc.data i (cdsLastJ rc i k) r k - rc.data i 0 r k) /
        (if cdsLastJ rc i k = 0 then (1 : ℚ) else (cdsLastJ rc i k : ℚ)))
  else
    gain r k *
      ((rc.data i (rc.n1 - 1) r k - rc.data i 0 r k) / ((rc.n1 - 1 : ℕ) : ℚ))

/-- The DQ mask of the output cube: default
`groupdq[:, -1] | groupdq[:, 0] | pixeldq` (line 106), overwritten for
transition columns by `groupdq[i, j, :, k] | groupdq[i, 0, :, k] |
pixeldq[:, k] | do_not_use` where `do_not_use = DO_NOT_USE` iff `j = 0`
(lines 117, 120-121). -/
def cdsMask (rc : RampCube) (i r k : ℕ) : ℕ :=
  if cdsHasTrans rc i k then
    rc.groupdq i (cdsLastJ rc i k) r k ||| rc.groupdq i 0 r k |||
      rc.pixeldq r k |||
      (if cdsLastJ rc i k = 0 then DO_NOT_USE else 0)
  else
    rc.groupdq i (rc.n1 - 1) r k ||| rc.groupdq i 0 r k ||| rc.pixeldq r k

/-- The effective-group-count array: default `n1 - 1` (line 107), overwritten
for transition columns by NaN if `j = 0` else `j` (line 122).  It does not
depend on the row. -/
def cdsNgroup (rc : RampCube) (i k : ℕ) : F :=
  if cdsHasTrans rc i k then
    if cdsLastJ rc i k = 0 then none else some ((cdsLastJ rc i k : ℕ) : ℚ)
  else
    some ((rc.n1 - 1 : ℕ) : ℚ)

/-- CDSCustomStep.process: builds the rate cube from a ramp cube and the
gain / read-noise maps (`rn` is the read-noise already converted to counts,
i.e. the `readnoise_2d = readnoise * gain` the step receives from
`get_gain_ron_2d`).  Lines 124-136: `cds = gain * cds`,
`varP = cds / ngroup`, `varR = 2 * readnoise_2d ** 2 / ngroup ** 2`,
`err = sqrt(varP + varR)` (stored squared, see module comment),
`dq = mask`. -/
def CDSCustomStep.process (rc : RampCube) (gain rn : ℕ → ℕ → ℚ) : RateCube where
  n0 := rc.n0
  n1 := rc.n2
  n2 := rc.n3
  data := fun i r k => cdsRate rc gain i r k
  dq := fun i r k => cdsMask rc i r k
  varp := fun i r k => fdiv (some (cdsRate rc gain i r k)) (cdsNgroup rc i k)
  varr := fun i r k =>
    fdiv (some (2 * rn r k ^ 2)) (fmul (cdsNgroup rc i k) (cdsNgroup rc i k))
  errSq := fun i r k =>
    fadd (fdiv (some (cdsRate rc gain i r k)) (cdsNgroup rc i k))
      (fdiv (some (2 * rn r k ^ 2))
        (fmul (cdsNgroup rc i k) (cdsNgroup rc i k)))
  ngroup := fun i _ k => cdsNgroup rc i k

/-- refcorr_custom_step lines 29-32: the reference band stacks
`data[:, 0:6, :]` and `data[:, -6:, :]`; each numpy slice yields
`min 6 n1` rows, the second one starting at row `n1 - min 6 n1`. -/
def refRows (n1 : ℕ) : List ℕ :=
  List.range (min 6 n1) ++
    (List.range (min 6 n1)).map fun r => n1 - min 6 n1 + r

/-- The reference samples of column `k` at integration `i`: the data values on
the reference rows (the `background` array reshaped to `(n0, -1, n2)`). -/
def refSamples (c : RateCube) (i k : ℕ) : List ℚ :=
  (refRows c.n1).map fun r => c.data i r k

/-- numpy median of a sample list: sort ascending; for odd length the middle
element, for even length the mean of the two middle elements.
(`np.ma.median` on an unmasked array agrees with `np.median`; the arrays the
step medians are plain, so no sample is ever masked.) -/
def medianQ (l : List ℚ) : ℚ :=
  if l.length % 2 = 1 then
    (List.insertionSort (· ≤ ·) l).getD (l.length / 2) 0
  else
    ((List.insertionSort (· ≤ ·) l).getD (l.length / 2 - 1) 0 +
        (List.insertionSort (· ≤ ·) l).getD (l.length / 2) 0) / 2

/-- ReferenceCorrectionCustomStep.process: subtracts the per-integration,
per-column median of the reference band from every row (lines 33-37), and
multiplies `var_rnoise` by `1 + 1 / background.shape[1]` (line 42), where
`background.shape[1]` is the reference sample count.  `dq`, `var_poisson`,
`err` and `ngroup` are not touched (the model is copied).  The auxiliary
`background` attribute is not modelled: no claim refers to it. -/
def ReferenceCorrectionCustomStep.process (c : RateCube) : RateCube :=
  { c with
    data := fun i r k => c.data i r k - medianQ (refSamples c i k)
    varr := fun i r k =>
      fmul (c.varr i r k)
        (some (1 + 1 / ((refSamples c i k).length : ℚ))) }

/-- FlaggingCustomStep.process: `sigma_clip` is external astropy code, so the
outlier set it returns is abstracted as the predicate `clip`; the step's own
logic (lines 26-30) is `new_outliers = (dq > 0) ^ clip_mask` and
`dq[new_outliers] |= JUMP_DET | DO_NOT_USE`.  The signal values are not
altered (`sigma_clip` only masks; the masked representation's data is the
input data), and variances, error and `ngroup` are untouched. -/
def FlaggingCustomStep.process (clip : ℕ → ℕ → ℕ → Bool) (c : RateCube) :
    RateCube :=
  { c with
    dq := fun i r k =>
      if (decide (0 < c.dq i r k)).xor (clip i r k) then
        c.dq i r k ||| (JUMP_DET ||| DO_NOT_USE)
      else c.dq i r k }

/-- timeaverage_custom_step lines 24, 34: for bin `b`, pixel `(r, k)`, the
sample times `t < B` of bin `b` whose DQ mask is clear; its length is the
`count` of unmasked contributing samples. -/
def validTs (c : RateCube) (B b r k : ℕ) : List ℕ :=
  (List.range B).filter fun t => c.dq (b * B + t) r k == 0

/-- Sum of a list of floating-point values; NaN propagates. -/
def osum (l : List F) : F := l.foldr fadd (some 0)

/-- Masked mean of the signal over a bin (line 35): the mean over unmasked
samples; an all-masked bin's mean is a masked element filled with 0
(line 44). -/
def tavData (c : RateCube) (B b r k : ℕ) : ℚ :=
  if (validTs c B b r k).length = 0 then 0
  else
    ((validTs c B b r k).map fun t => c.data (b * B + t) r k).sum /
      ((validTs c B b r k).length : ℚ)

/-- Masked mean of a variance array over a bin divided by the per-pixel count
(lines 36-37): `(masked mean) / count`; an all-masked bin's entry is masked
and filled with 0 (lines 46-47). -/
def tavVar (v : ℕ → ℕ → ℕ → F) (c : RateCube) (B b r k : ℕ) : F :=
  if (validTs c B b r k).length = 0 then some 0
  else
    fdiv
      (fdiv (osum ((validTs c B b r k).map fun t => v (b * B + t) r k))
        (some ((validTs c B b r k).length : ℚ)))
      (some ((validTs c B b r k).length : ℚ))

/-- The binned cube produced by TimeAverageStep for a positive bin size `B`:
the integration axis is truncated to `new_n0 = n0 - n0 % B` (line 23) and
reshaped into `new_n0 / B` bins of `B`; `dq` is the all-samples-masked
indicator cast to an integer (line 39); `err = sqrt(varp + varr)` (line 38,
stored squared); the `ngroup` attribute is summed (plain, unmasked sum) over
each bin (line 52). -/
def tavCube (c : RateCube) (B : ℕ) : RateCube where
  n0 := (c.n0 - c.n0 % B) / B
  n1 := c.n1
  n2 := c.n2
  data := fun b r k => tavData c B b r k
  dq := fun b r k => if (validTs c B b r k).length = 0 then 1 else 0
  varp := fun b r k => tavVar c.varp c B b r k
  varr := fun b r k => tavVar c.varr c B b r k
  errSq := fun b r k => fadd (tavVar c.varp c B b r k) (tavVar c.varr c B b r k)
  ngroup := fun b r k =>
    osum ((List.range B).map fun t => c.ngroup (b * B + t) r k)

/-- TimeAverageStep.process: the step raises for a non-positive bin size
(`n0 % 0` raises ZeroDivisionError for `num_ave = 0`; `reshape(-1, num_ave,
n1, n2)` raises ValueError for negative `num_ave`, two unknown dimensions),
so the stage aborts with no output, modelled as `none`; otherwise it returns
the binned cube. -/
def TimeAverageStep.process (c : RateCube) (B : ℤ) : Option RateCube :=
  if B ≤ 0 then none else some (tavCube c B.toNat)

/-- Python slice start for a non-negative step: a negative start counts from
the end, clamped below at 0; a non-negative start is clamped above at `n`. -/
def pyLo (n : ℕ) (i : ℤ) : ℕ :=
  if i < 0 then ((n : ℤ) + i).toNat else min i.toNat n

/-- uncal2L1 lines 56-58: whether column `c` of group `j`, integration `i`
lies in the slice `k - ncols : k + ncols + 1` for some pixel `(r0, k)` that
the original `groupdq` flags SATURATED.  The loop uses `np.where` indices
computed before any mutation, and `|=` accumulation is order-independent,
so the result is this disjunction. -/
def satColHit (rc : RampCube) (ncols i j c : ℕ) : Bool :=
  (List.range rc.n2).any fun r0 =>
    (List.range rc.n3).any fun k =>
      decide (rc.groupdq i j r0 k &&& SATURATED ≠ 0) &&
        decide (pyLo rc.n3 ((k : ℤ) - (ncols : ℤ)) ≤ c) &&
        decide (c < min (k + ncols + 1) rc.n3)

/-- FlagSaturatedColumns (uncal2L1 lines 53-60): ORs
`SATURATED | DO_NOT_USE` into every entry hit by the column slice of some
originally-saturated pixel of the same integration and group. -/
def FlagSaturatedColumns (rc : RampCube) (ncols : ℕ) : RampCube :=
  { rc with
    groupdq := fun i j r c =>
      rc.groupdq i j r c |||
        (if satColHit rc ncols i j c then SATURATED ||| DO_NOT_USE else 0) }

/-- The error-consistency invariant of the spec: at every in-bounds pixel
whose DQ mask is clear, the stored (squared) error equals the variance sum,
i.e. `err = sqrt(var_poisson + var_rnoise)`. -/
def errConsistent (c : RateCube) : Prop :=
  ∀ i < c.n0, ∀ r < c.n1, ∀ k < c.n2,
    c.dq i r k = 0 → c.errSq i r k = fadd (c.varp i r k) (c.varr i r k)

instance errConsistentDecidable (c : RateCube) :
    Decidable (errConsistent c) := by
  unfold errConsistent
  infer_instance

/-- ORing DO_NOT_USE into a mask makes the DO_NOT_USE bit set. -/
lemma or_dnu_and_dnu (x : ℕ) :
    (x ||| DO_NOT_USE) &&& DO_NOT_USE = DO_NOT_USE := by
  show (x ||| 1) &&& 1 = 1
  apply Nat.eq_of_testBit_eq
  intro n
  rcases n with _ | m
  · simp [Nat.testBit_land, Nat.testBit_lor]
  · simp [Nat.testBit_land, Nat.testBit_lor, Nat.testBit_succ]

/-- If the mid-row DQ of column `k` at integration `i` shows SATURATED from
group `g + 1` on and nowhere before, then the transition search of the CDS
step finds a transition, and the surviving (largest) transition index is
`g`. -/
lemma cds_pattern_lastJ (rc : RampCube) (i k g : ℕ) (hg : g + 1 < rc.n1)
    (hpat : ∀ h < rc.n1, rc.groupdq i h (rc.n2 / 2) k &&& SATURATED =
      if g + 1 ≤ h then SATURATED else 0) :
    cdsHasTrans rc i k = true ∧ cdsLastJ rc i k = g := by
  have hchar : ∀ j, j + 1 < rc.n1 → (satTrans rc i j k = true ↔ j = g) := by
    intro j hj
    unfold satTrans
    rw [hpat (j + 1) hj, hpat j (by omega)]
    simp only [Bool.and_eq_true, beq_iff_eq, SATURATED]
    split_ifs <;> simp <;> omega
  constructor
  · unfold cdsHasTrans
    rw [List.any_eq_true]
    exact ⟨g, List.mem_range.mpr (by omega), (hchar g hg).mpr rfl⟩
  · unfold cdsLastJ
    rw [Nat.findGreatest_eq_iff]
    refine ⟨by omega, fun _ => (hchar g hg).mpr rfl, ?_⟩
    intro n hgn hnb hP
    exact absurd ((hchar n (by omega)).mp hP) (by omega)

/-- C4: for a ramp cube with no SATURATED flags, the CDS step takes the
default path everywhere: rate `= gain * (last group - first group) /
(num_groups - 1)` and effective group count `= num_groups - 1` at every
pixel and integration. -/
theorem C4_default_rate (rc : RampCube) (gain rn : ℕ → ℕ → ℚ)
    (h2 : 2 ≤ rc.n1)
    (hsat : ∀ i h r c, rc.groupdq i h r c &&& SATURATED = 0) :
    ∀ i r k,
      (CDSCustomStep.process rc gain rn).data i r k =
        gain r k *
          ((rc.data i (rc.n1 - 1) r k - rc.data i 0 r k) /
            ((rc.n1 - 1 : ℕ) : ℚ)) ∧
      (CDSCustomStep.process rc gain rn).ngroup i r k =
        some ((rc.n1 - 1 : ℕ) : ℚ) := by
  intro i r k
  have hht : cdsHasTrans rc i k = false := by
    unfold cdsHasTrans
    rw [List.any_eq_false]
    intro j hj
    simp only [satTrans, hsat]
    simp [SATURATED]
  constructor
  · show cdsRate rc gain i r k = _
    simp [cdsRate, hht]
  · show cdsNgroup rc i k = _
    simp [cdsNgroup, hht]

/-- C1: for a ramp whose mid-row saturation first appears at group `g + 1`
of column `k` (so the differenced saturation mask has its transition at
index `g`, with `g < num_groups - 1`), the CDS step with unit gain produces,
for every pixel of that column: if `1 ≤ g`, effective groups `g` and rate
`(data[g] - data[0]) / g`; if `g = 0`, the NaN effective-group sentinel and
a DQ mask containing DO_NOT_USE. -/
theorem C1_saturation_truncation (rc : RampCube) (gain rn : ℕ → ℕ → ℚ)
    (i k g : ℕ) (hg : g + 1 < rc.n1)
    (hpat : ∀ h < rc.n1, rc.groupdq i h (rc.n2 / 2) k &&& SATURATED =
      if g + 1 ≤ h then SATURATED else 0)
    (hgain : ∀ r, gain r k = 1) :
    (1 ≤ g → ∀ r,
        (CDSCustomStep.process rc gain rn).ngroup i r k = some (g : ℚ) ∧
        (CDSCustomStep.process rc gain rn).data i r k =
          (rc.data i g r k - rc.data i 0 r k) / (g : ℚ)) ∧
    (g = 0 → ∀ r,
        (CDSCustomStep.process rc gain rn).ngroup i r k = none ∧
        (CDSCustomStep.process rc gain rn).dq i r k &&& DO_NOT_USE =
          DO_NOT_USE) := by
  obtain ⟨hht, hlj⟩ := cds_pattern_lastJ rc i k g hg hpat
  constructor
  · intro hg1 r
    have hgne : g ≠ 0 := by omega
    constructor
    · show cdsNgroup rc i k = _
      simp [cdsNgroup, hht, hlj, hgne]
    · show cdsRate rc gain i r k = _
      simp [cdsRate, hht, hlj, hgne, hgain r]
  · intro hg0 r
    subst hg0
    constructor
    · show cdsNgroup rc i k = _
      simp [cdsNgroup, hht, hlj]
    · show cdsMask rc i r k &&& DO_NOT_USE = DO_NOT_USE
      rw [cdsMask]
      simp only [hht, hlj, if_true]
      simpa using or_dnu_and_dnu
        (rc.groupdq i 0 r k ||| rc.groupdq i 0 r k ||| rc.pixeldq r k)

/-- Unit calibration map (unit gain / read-noise). -/
def oneMap : ℕ → ℕ → ℚ := fun _ _ => 1

/-- One integration, four groups, one pixel, saturated from group 2 on. -/
def wRamp1 : RampCube where
  n0 := 1
  n1 := 4
  n2 := 1
  n3 := 1
  data := fun _ j _ _ => ((j * j : ℕ) : ℚ)
  groupdq := fun _ j _ _ => if 2 ≤ j then SATURATED else 0
  pixeldq := fun _ _ => 0

/-- Witness for C1: on `wRamp1` the transition index is `g = 1` and the CDS
step yields effective groups 1 and rate `(data[1] - data[0]) / 1`. -/
theorem C1_saturation_truncation_witness :
    (1 + 1 < wRamp1.n1 ∧
      (∀ h < wRamp1.n1, wRamp1.groupdq 0 h (wRamp1.n2 / 2) 0 &&& SATURATED =
        if 1 + 1 ≤ h then SATURATED else 0)) ∧
    ((1 ≤ 1 → ∀ r,
        (CDSCustomStep.process wRamp1 oneMap oneMap).ngroup 0 r 0 =
          some ((1 : ℕ) : ℚ) ∧
        (CDSCustomStep.process wRamp1 oneMap oneMap).data 0 r 0 =
          (wRamp1.data 0 1 r 0 - wRamp1.data 0 0 r 0) / ((1 : ℕ) : ℚ)) ∧
      (1 = 0 → ∀ r,
        (CDSCustomStep.process wRamp1 oneMap oneMap).ngroup 0 r 0 = none ∧
        (CDSCustomStep.process wRamp1 oneMap oneMap).dq 0 r 0 &&& DO_NOT_USE =
          DO_NOT_USE)) :=
  ⟨⟨by decide, by decide⟩,
    C1_saturation_truncation wRamp1 oneMap oneMap 0 0 1 (by decide) (by decide)
      (fun _ => rfl)⟩

/-- Two integrations, ten groups, 4 x 4 pixels, no saturation anywhere. -/
def wRamp4 : RampCube where
  n0 := 2
  n1 := 10
  n2 := 4
  n3 := 4
  data := fun i j r c => ((i + 2 * j + r + c : ℕ) : ℚ)
  groupdq := fun _ _ _ _ => 0
  pixeldq := fun _ _ => 0

/-- Witness for C4: the synthetic 2 x 10 x 4 x 4 unsaturated ramp with unit
calibration gets the default rate `(data[9] - data[0]) / 9` and effective
groups 9 everywhere. -/
theorem C4_default_rate_witness :
    (2 ≤ wRamp4.n1 ∧
      (∀ i h r c, wRamp4.groupdq i h r c &&& SATURATED = 0)) ∧
    (∀ i r k,
      (CDSCustomStep.process wRamp4 oneMap oneMap).data i r k =
        oneMap r k *
          ((wRamp4.data i (wRamp4.n1 - 1) r k - wRamp4.data i 0 r k) /
            ((wRamp4.n1 - 1 : ℕ) : ℚ)) ∧
      (CDSCustomStep.process wRamp4 oneMap oneMap).ngroup i r k =
        some ((wRamp4.n1 - 1 : ℕ) : ℚ)) :=
  ⟨⟨by decide, fun _ _ _ _ => by simp [wRamp4]⟩,
    C4_default_rate wRamp4 oneMap oneMap (by decide)
      (fun _ _ _ _ => by simp [wRamp4])⟩

/-- C9: at a column saturated from the second group on (transition index 0),
the CDS step writes signal exactly 0 (gain times `(data[0] - data[0]) / 1`),
NaN Poisson variance, read-noise variance and error, the NaN
effective-group sentinel, and a DQ mask containing DO_NOT_USE. -/
theorem C9_g0_signal_zero (rc : RampCube) (gain rn : ℕ → ℕ → ℚ)
    (i k : ℕ) (h1 : 1 < rc.n1)
    (hpat : ∀ h < rc.n1, rc.groupdq i h (rc.n2 / 2) k &&& SATURATED =
      if 1 ≤ h then SATURATED else 0) :
    ∀ r,
      (CDSCustomStep.process rc gain rn).data i r k = 0 ∧
      (CDSCustomStep.process rc gain rn).varp i r k = none ∧
      (CDSCustomStep.process rc gain rn).varr i r k = none ∧
      (CDSCustomStep.process rc gain rn).errSq i r k = none ∧
      (CDSCustomStep.process rc gain rn).ngroup i r k = none ∧
      (CDSCustomStep.process rc gain rn).dq i r k &&& DO_NOT_USE =
        DO_NOT_USE := by
  obtain ⟨hht, hlj⟩ := cds_pattern_lastJ rc i k 0 h1 (by simpa using hpat)
  intro r
  have hng : cdsNgroup rc i k = none := by simp [cdsNgroup, hht, hlj]
  have hrate : cdsRate rc gain i r k = 0 := by simp [cdsRate, hht, hlj]
  refine ⟨hrate, ?_, ?_, ?_, hng, ?_⟩
  · show fdiv _ (cdsNgroup rc i k) = none
    rw [hng]; rfl
  · show fdiv _ (fmul (cdsNgroup rc i k) (cdsNgroup rc i k)) = none
    rw [hng]; rfl
  · show fadd (fdiv _ (cdsNgroup rc i k))
      (fdiv _ (fmul (cdsNgroup rc i k) (cdsNgroup rc i k))) = none
    rw [hng]; rfl
  · show cdsMask rc i r k &&& DO_NOT_USE = DO_NOT_USE
    rw [cdsMask]
    simp only [hht, hlj, if_true]
    simpa using or_dnu_and_dnu
      (rc.groupdq i 0 r k ||| rc.groupdq i 0 r k ||| rc.pixeldq r k)

/-- One integration, three groups, one pixel, saturated from group 1 on. -/
def wRamp9 : RampCube where
  n0 := 1
  n1 := 3
  n2 := 1
  n3 := 1
  data := fun _ j _ _ => ((3 * j : ℕ) : ℚ)
  groupdq := fun _ j _ _ => if 1 ≤ j then SATURATED else 0
  pixeldq := fun _ _ => 0

/-- Witness for C9: on `wRamp9` (saturated already at group 1) the CDS step
writes signal 0, NaN variances and error, NaN effective groups, and a
DO_NOT_USE mask. -/
theorem C9_g0_signal_zero_witness :
    (1 < wRamp9.n1 ∧
      (∀ h < wRamp9.n1, wRamp9.groupdq 0 h (wRamp9.n2 / 2) 0 &&& SATURATED =
        if 1 ≤ h then SATURATED else 0)) ∧
    (∀ r,
      (CDSCustomStep.process wRamp9 oneMap oneMap).data 0 r 0 = 0 ∧
      (CDSCustomStep.process wRamp9 oneMap oneMap).varp 0 r 0 = none ∧
      (CDSCustomStep.process wRamp9 oneMap oneMap).varr 0 r 0 = none ∧
      (CDSCustomStep.process wRamp9 oneMap oneMap).errSq 0 r 0 = none ∧
      (CDSCustomStep.process wRamp9 oneMap oneMap).ngroup 0 r 0 = none ∧
      (CDSCustomStep.process wRamp9 oneMap oneMap).dq 0 r 0 &&& DO_NOT_USE =
        DO_NOT_USE) :=
  ⟨⟨by decide, by decide⟩,
    C9_g0_signal_zero wRamp9 oneMap oneMap 0 0 (by decide) (by decide)⟩

/-- A ramp with a single SATURATED pixel at column 0 of a 4-column detector
(group 0, row 0, integration 0). -/
def c3Ramp : RampCube where
  n0 := 1
  n1 := 1
  n2 := 1
  n3 := 4
  data := fun _ _ _ _ => 0
  groupdq := fun i j r k =>
    if i = 0 ∧ j = 0 ∧ r = 0 ∧ k = 0 then SATURATED else 0
  pixeldq := fun _ _ => 0

/-- A ramp with a single SATURATED pixel at the interior column 2 of a
5-column detector (group 0 of 2, row 0, integration 0). -/
def c3RampMid : RampCube where
  n0 := 1
  n1 := 2
  n2 := 1
  n3 := 5
  data := fun _ _ _ _ => 0
  groupdq := fun i j r k =>
    if i = 0 ∧ j = 0 ∧ r = 0 ∧ k = 2 then SATURATED else 0
  pixeldq := fun _ _ => 0

/-- C3 (code bug): with `ncols = 1` and the saturated pixel at column
`k = 0`, the slice `k - ncols : k + ncols + 1` has the negative Python start
`-1`, which counts from the end and gives the empty slice `3:2`; so, contrary
to the claim (and to the function's own docstring), no column at all is
flagged: column 0 gains no DO_NOT_USE bit and column 1 stays 0.  For an
interior pixel (column 2 of `c3RampMid`) the claimed behaviour does hold:
columns 1-3 of that group gain SATURATED | DO_NOT_USE, columns 0 and 4 are
untouched, and the other group is not modified. -/
theorem C3_boundary_bug :
    (c3Ramp.groupdq 0 0 0 0 &&& SATURATED ≠ 0 ∧
      (FlagSaturatedColumns c3Ramp 1).groupdq 0 0 0 0 &&& DO_NOT_USE = 0 ∧
      (FlagSaturatedColumns c3Ramp 1).groupdq 0 0 0 1 = 0) ∧
    ((FlagSaturatedColumns c3RampMid 1).groupdq 0 0 0 1 =
        SATURATED ||| DO_NOT_USE ∧
      (FlagSaturatedColumns c3RampMid 1).groupdq 0 0 0 2 =
        SATURATED ||| (SATURATED ||| DO_NOT_USE) ∧
      (FlagSaturatedColumns c3RampMid 1).groupdq 0 0 0 3 =
        SATURATED ||| DO_NOT_USE ∧
      (FlagSaturatedColumns c3RampMid 1).groupdq 0 0 0 0 = 0 ∧
      (FlagSaturatedColumns c3RampMid 1).groupdq 0 0 0 4 = 0 ∧
      (FlagSaturatedColumns c3RampMid 1).groupdq 0 1 0 2 = 0) := by decide

/-- C7: for every clip outcome of the (external, abstracted) sigma-clipping
and every input cube, the flagging step ORs JUMP_DET | DO_NOT_USE into the
DQ mask at exactly the positions where previously-flagged-bad XOR
now-clipped holds, leaves every other entry unchanged, and never clears a
pre-existing mask bit. -/
theorem C7_outlier_flag_update (clip : ℕ → ℕ → ℕ → Bool) (c : RateCube) :
    ∀ i r k,
      ((FlaggingCustomStep.process clip c).dq i r k =
        c.dq i r k |||
          (if (0 < c.dq i r k) ≠ (clip i r k = true) then
            JUMP_DET ||| DO_NOT_USE
           else 0)) ∧
      ∀ t, (c.dq i r k).testBit t = true →
        ((FlaggingCustomStep.process clip c).dq i r k).testBit t = true := by
  intro i r k
  have hx : ((decide (0 < c.dq i r k)).xor (clip i r k) = true) ↔
      ((0 < c.dq i r k) ≠ (clip i r k = true)) := by
    rcases h1 : decide (0 < c.dq i r k) <;> rcases h2 : clip i r k <;>
      simp_all
  constructor
  · simp only [FlaggingCustomStep.process]
    by_cases hc : (0 < c.dq i r k) ≠ (clip i r k = true)
    · rw [if_pos (hx.mpr hc), if_pos hc]
    · rw [if_neg (fun hb => hc (hx.mp hb)), if_neg hc]
      simp
  · intro t ht
    simp only [FlaggingCustomStep.process]
    split
    · simp [Nat.testBit_lor, ht]
    · exact ht

/-- C8: a non-positive bin size makes the time-average step fail fatally
with no output (Python raises: `%` by zero for `B = 0`, reshape with two
unknown dimensions for `B < 0`). -/
theorem C8_nonpositive_bin (c : RateCube) (B : ℤ) (hB : B ≤ 0) :
    TimeAverageStep.process c B = none := by
  simp [TimeAverageStep.process, hB]

/-- A small rate cube used by the time-average witnesses: three
integrations, one pixel, the pixel of integration 1 masked. -/
def wCube8 : RateCube where
  n0 := 3
  n1 := 1
  n2 := 1
  data := fun i _ _ => ((i + 1 : ℕ) : ℚ)
  dq := fun i _ _ => if i = 1 then SATURATED else 0
  varp := fun _ _ _ => some 1
  varr := fun _ _ _ => some 1
  errSq := fun _ _ _ => some 2
  ngroup := fun _ _ _ => some 9

/-- Witness for C8: bin size 0 on a concrete cube yields no output. -/
theorem C8_nonpositive_bin_witness :
    ((0 : ℤ) ≤ 0) ∧ TimeAverageStep.process wCube8 0 = none :=
  ⟨le_refl 0, C8_nonpositive_bin wCube8 0 (le_refl 0)⟩

/-- The bin of a pixel has no valid sample exactly when every sample's DQ
mask in the bin is set. -/
lemma validTs_length_eq_zero_iff (c : RateCube) (B b r k : ℕ) :
    (validTs c B b r k).length = 0 ↔
      ∀ t < B, 0 < c.dq (b * B + t) r k := by
  rw [validTs, List.length_eq_zero, List.filter_eq_nil_iff]
  constructor
  · intro h t ht
    have h2 := h t (List.mem_range.mpr ht)
    simp only [beq_iff_eq] at h2
    omega
  · intro h t ht
    have h2 := h t (List.mem_range.mp ht)
    simp only [beq_iff_eq]
    omega

/-- C10: every DQ entry of the binned output cube is 0 or 1 (the
all-samples-masked indicator cast to an integer), so none of the input's
bit-flag vocabulary survives binning. -/
theorem C10_binary_mask (c : RateCube) (B : ℤ) (oc : RateCube)
    (hoc : TimeAverageStep.process c B = some oc) :
    ∀ b r k, oc.dq b r k = 0 ∨ oc.dq b r k = 1 := by
  intro b r k
  unfold TimeAverageStep.process at hoc
  split at hoc
  · exact absurd hoc (by simp)
  · have h := Option.some.inj hoc
    subst h
    show (if (validTs c B.toNat b r k).length = 0 then 1 else 0) = 0 ∨
      (if (validTs c B.toNat b r k).length = 0 then 1 else 0) = 1
    split
    · right; rfl
    · left; rfl

/-- Witness for C10: binning `wCube8` with bin size 2 produces a cube, and
all its DQ entries are 0 or 1. -/
theorem C10_binary_mask_witness :
    TimeAverageStep.process wCube8 2 = some (tavCube wCube8 2) ∧
    ∀ b r k,
      (tavCube wCube8 2).dq b r k = 0 ∨ (tavCube wCube8 2).dq b r k = 1 :=
  ⟨rfl, C10_binary_mask wCube8 2 (tavCube wCube8 2) rfl⟩

/-- C6: for every rate cube and positive bin size, the time-average step
succeeds and its output truncates the integration axis to the largest
multiple of the bin size; each output DQ entry is the all-samples-masked
indicator; an all-masked bin yields the zero sentinel in signal, variances
and (squared) error; a bin with valid samples yields the masked mean of the
signal, each variance the masked variance mean divided by the valid-sample
count, and the squared error is always the variance sum. -/
theorem C6_temporal_binning (c : RateCube) (B : ℤ) (hB : 0 < B) :
    TimeAverageStep.process c B = some (tavCube c B.toNat) ∧
    (tavCube c B.toNat).n0 * B.toNat = c.n0 - c.n0 % B.toNat ∧
    ∀ b r k,
      ((tavCube c B.toNat).dq b r k =
        if ∀ t < B.toNat, 0 < c.dq (b * B.toNat + t) r k then 1 else 0) ∧
      ((validTs c B.toNat b r k).length = 0 →
        (tavCube c B.toNat).data b r k = 0 ∧
        (tavCube c B.toNat).varp b r k = some 0 ∧
        (tavCube c B.toNat).varr b r k = some 0 ∧
        (tavCube c B.toNat).errSq b r k = some 0) ∧
      (0 < (validTs c B.toNat b r k).length →
        (tavCube c B.toNat).data b r k *
            ((validTs c B.toNat b r k).length : ℚ) =
          ((validTs c B.toNat b r k).map fun t =>
            c.data (b * B.toNat + t) r k).sum ∧
        fmul ((tavCube c B.toNat).varp b r k)
            (some (((validTs c B.toNat b r k).length : ℚ) ^ 2)) =
          osum ((validTs c B.toNat b r k).map fun t =>
            c.varp (b * B.toNat + t) r k) ∧
        fmul ((tavCube c B.toNat).varr b r k)
            (some (((validTs c B.toNat b r k).length : ℚ) ^ 2)) =
          osum ((validTs c B.toNat b r k).map fun t =>
            c.varr (b * B.toNat + t) r k)) ∧
      ((tavCube c B.toNat).errSq b r k =
        fadd ((tavCube c B.toNat).varp b r k)
          ((tavCube c B.toNat).varr b r k)) := by
  have hb : 0 < B.toNat := by omega
  refine ⟨by rw [TimeAverageStep.process, if_neg (by omega)], ?_, ?_⟩
  · show (c.n0 - c.n0 % B.toNat) / B.toNat * B.toNat = c.n0 - c.n0 % B.toNat
    have hd : B.toNat * (c.n0 / B.toNat) + c.n0 % B.toNat = c.n0 :=
      Nat.div_add_mod c.n0 B.toNat
    have h1 : c.n0 - c.n0 % B.toNat = B.toNat * (c.n0 / B.toNat) :=
      Nat.sub_eq_of_eq_add hd.symm
    rw [h1, Nat.mul_div_cancel_left _ hb]
    exact Nat.mul_comm _ _
  intro b r k
  refine ⟨?_, ?_, ?_, rfl⟩
  · show (if (validTs c B.toNat b r k).length = 0 then 1 else 0) = _
    exact if_congr (validTs_length_eq_zero_iff c B.toNat b r k) rfl rfl
  · intro h0
    refine ⟨?_, ?_, ?_, ?_⟩
    · show tavData c B.toNat b r k = 0
      rw [tavData, if_pos h0]
    · show tavVar c.varp c B.toNat b r k = some 0
      rw [tavVar, if_pos h0]
    · show tavVar c.varr c B.toNat b r k = some 0
      rw [tavVar, if_pos h0]
    · show fadd (tavVar c.varp c B.toNat b r k)
        (tavVar c.varr c B.toNat b r k) = some 0
      rw [tavVar, if_pos h0, tavVar, if_pos h0]
      simp [fadd]
  · intro hpos
    have hne : (((validTs c B.toNat b r k).length : ℚ)) ≠ 0 :=
      Nat.cast_ne_zero.mpr (by omega)
    refine ⟨?_, ?_, ?_⟩
    · show tavData c B.toNat b r k * _ = _
      rw [tavData, if_neg (by omega)]
      exact div_mul_cancel₀ _ hne
    · show fmul (tavVar c.varp c B.toNat b r k) _ = _
      rw [tavVar, if_neg (by omega)]
      rcases hS : osum ((validTs c B.toNat b r k).map fun t =>
          c.varp (b * B.toNat + t) r k) with _ | s
      · rfl
      · simp only [fdiv, fmul, if_neg hne]
        exact congrArg some (by rw [sq, div_div, div_mul_cancel₀ _ (mul_ne_zero hne hne)])
    · show fmul (tavVar c.varr c B.toNat b r k) _ = _
      rw [tavVar, if_neg (by omega)]
      rcases hS : osum ((validTs c B.toNat b r k).map fun t =>
          c.varr (b * B.toNat + t) r k) with _ | s
      · rfl
      · simp only [fdiv, fmul, if_neg hne]
        exact congrArg some (by rw [sq, div_div, div_mul_cancel₀ _ (mul_ne_zero hne hne)])

/-- Witness for C6: binning the concrete cube `wCube8` with bin size 2
succeeds, producing `tavCube wCube8 2`. -/
theorem C6_temporal_binning_witness :
    (0 : ℤ) < 2 ∧
      TimeAverageStep.process wCube8 2 = some (tavCube wCube8 2) :=
  ⟨by decide, (C6_temporal_binning wCube8 2 (by decide)).1⟩

/-- The median of a non-empty list all of whose elements equal `v` is `v`. -/
lemma medianQ_const (l : List ℚ) (v : ℚ) (h0 : l ≠ [])
    (hall : ∀ x ∈ l, x = v) : medianQ l = v := by
  have hperm := List.perm_insertionSort (· ≤ ·) l
  have hmem : ∀ x ∈ List.insertionSort (· ≤ ·) l, x = v := fun x hx =>
    hall x (hperm.mem_iff.mp hx)
  have hlen : (List.insertionSort (· ≤ ·) l).length = l.length :=
    hperm.length_eq
  have hlpos : 0 < l.length := List.length_pos.mpr h0
  have hget : ∀ i, i < l.length →
      (List.insertionSort (· ≤ ·) l).getD i 0 = v := by
    intro i hi
    rw [List.getD_eq_getElem _ _ (by rw [hlen]; exact hi)]
    exact hmem _ (List.getElem_mem _)
  unfold medianQ
  split
  · exact hget _ (Nat.div_lt_self hlpos (by norm_num))
  · rw [hget _ (by omega), hget _ (Nat.div_lt_self hlpos (by norm_num))]
    ring

/-- C5: if the reference rows (the 6 top and 6 bottom rows) of column `k` at
integration `i` carry the constant value `off`, the background-correction
step subtracts exactly `off` (the median of the 12 reference samples) from
every row of that column of that integration, and multiplies `var_rnoise`
by exactly `1 + 1/12`. -/
theorem C5_background_subtraction (c : RateCube) (i k : ℕ) (off : ℚ)
    (h12 : 12 ≤ c.n1)
    (href : ∀ r, r < 6 ∨ (c.n1 - 6 ≤ r ∧ r < c.n1) → c.data i r k = off) :
    ∀ r,
      (ReferenceCorrectionCustomStep.process c).data i r k =
        c.data i r k - off ∧
      (ReferenceCorrectionCustomStep.process c).varr i r k =
        fmul (c.varr i r k) (some (1 + 1 / 12)) := by
  have hmin : min 6 c.n1 = 6 := min_eq_left (by omega)
  have hlen : (refSamples c i k).length = 12 := by
    simp [refSamples, refRows, hmin]
  have hallv : ∀ x ∈ refSamples c i k, x = off := by
    intro x hx
    obtain ⟨r, hr, rfl⟩ := List.mem_map.mp hx
    have hr2 : r < 6 ∨ ∃ a, a < 6 ∧ c.n1 - 6 + a = r := by
      simpa [refRows, hmin] using hr
    rcases hr2 with h | ⟨s, hs, rfl⟩
    · exact href r (Or.inl h)
    · exact href _ (Or.inr (by omega))
  have hne : refSamples c i k ≠ [] := by
    intro h
    rw [h] at hlen
    simp at hlen
  have hmed : medianQ (refSamples c i k) = off :=
    medianQ_const _ _ hne hallv
  intro r
  constructor
  · show c.data i r k - medianQ (refSamples c i k) = _
    rw [hmed]
  · show fmul (c.varr i r k)
      (some (1 + 1 / ((refSamples c i k).length : ℚ))) = _
    rw [hlen]
    norm_num

/-- One integration, 15 rows, one column; the reference rows (0-5 and 9-14)
all hold 5, the interior rows hold 100. -/
def wCube5 : RateCube where
  n0 := 1
  n1 := 15
  n2 := 1
  data := fun _ r _ => if r < 6 ∨ 9 ≤ r then (5 : ℚ) else 100
  dq := fun _ _ _ => 0
  varp := fun _ _ _ => some 1
  varr := fun _ _ _ => some 2
  errSq := fun _ _ _ => some 3
  ngroup := fun _ _ _ => some 9

/-- Witness for C5: on `wCube5` the step subtracts the constant reference
value 5 from every row and scales `var_rnoise` by `1 + 1/12`. -/
theorem C5_background_subtraction_witness :
    12 ≤ wCube5.n1 ∧
    (∀ r, r < 6 ∨ (wCube5.n1 - 6 ≤ r ∧ r < wCube5.n1) →
      wCube5.data 0 r 0 = 5) ∧
    ∀ r,
      (ReferenceCorrectionCustomStep.process wCube5).data 0 r 0 =
        wCube5.data 0 r 0 - 5 ∧
      (ReferenceCorrectionCustomStep.process wCube5).varr 0 r 0 =
        fmul (wCube5.varr 0 r 0) (some (1 + 1 / 12)) := by
  have h : ∀ r, r < 6 ∨ (wCube5.n1 - 6 ≤ r ∧ r < wCube5.n1) →
      wCube5.data 0 r 0 = 5 := by
    intro r hr
    show (if r < 6 ∨ 9 ≤ r then (5 : ℚ) else 100) = 5
    rcases hr with h1 | ⟨h1, _⟩
    · exact if_pos (Or.inl h1)
    · exact if_pos (Or.inr h1)
  exact ⟨by decide, h, C5_background_subtraction wCube5 0 0 5 (by decide) h⟩

/-- If a bitwise OR is zero, so is its left operand. -/
lemma lor_eq_zero_left {x y : ℕ} (h : x ||| y = 0) : x = 0 := by
  apply Nat.eq_of_testBit_eq
  intro n
  have h2 := congrArg (fun z => z.testBit n) h
  simp only [Nat.testBit_lor] at h2
  simp only [Nat.zero_testBit] at h2 ⊢
  exact (Bool.or_eq_false_iff.mp h2).1

/-- If a bitwise OR is zero, so is its right operand. -/
lemma lor_eq_zero_right {x y : ℕ} (h : x ||| y = 0) : y = 0 :=
  lor_eq_zero_left (Nat.lor_comm x y ▸ h)

/-- C2 (amended): the identity `err = sqrt(var_poisson + var_rnoise)` (here:
`errSq = var_poisson + var_rnoise`) holds at every unmasked pixel after the
CDS step, is preserved by the flagging step, and holds after the
time-average step; but after the reference-correction step the stored error
is stale: it still equals the square root of the PRE-correction variance
sum, while `var_rnoise` has been inflated by `1 + 1/sample_count`, so the
claimed invariant fails at that stage boundary. -/
theorem C2_err_consistency_amended :
    (∀ rc gain rn, errConsistent (CDSCustomStep.process rc gain rn)) ∧
    (∀ clip c, errConsistent c →
      errConsistent (FlaggingCustomStep.process clip c)) ∧
    (∀ c B oc, TimeAverageStep.process c B = some oc → errConsistent oc) ∧
    (∀ c, errConsistent c →
      ∀ i < c.n0, ∀ r < c.n1, ∀ k < c.n2, c.dq i r k = 0 →
        (ReferenceCorrectionCustomStep.process c).errSq i r k =
          fadd (c.varp i r k) (c.varr i r k) ∧
        (ReferenceCorrectionCustomStep.process c).varr i r k =
          fmul (c.varr i r k)
            (some (1 + 1 / ((refSamples c i k).length : ℚ)))) := by
  refine ⟨?_, ?_, ?_, ?_⟩
  · intro rc gain rn i hi r hr k hk hdq
    rfl
  · intro clip c hc i hi r hr k hk hdq
    revert hdq
    show (if (decide (0 < c.dq i r k)).xor (clip i r k) then
        c.dq i r k ||| (JUMP_DET ||| DO_NOT_USE)
      else c.dq i r k) = 0 → _
    split
    · intro h0
      exact absurd (lor_eq_zero_right h0) (by decide)
    · intro h0
      exact hc i hi r hr k hk h0
  · intro c B oc hoc i hi r hr k hk hdq
    unfold TimeAverageStep.process at hoc
    split at hoc
    · exact absurd hoc (by simp)
    · have h := Option.some.inj hoc
      subst h
      rfl
  · intro c hc i hi r hr k hk hdq
    exact ⟨hc i hi r hr k hk hdq, rfl⟩

/-- A trivial flat, unsaturated ramp (1 integration, 2 groups, 12 rows,
1 column) with unit calibration: the resulting rate cube is fully unmasked
with `var_poisson = 0` and `var_rnoise = 2`. -/
def c2Ramp : RampCube where
  n0 := 1
  n1 := 2
  n2 := 12
  n3 := 1
  data := fun _ _ _ _ => 0
  groupdq := fun _ _ _ _ => 0
  pixeldq := fun _ _ => 0

/-- Counterexample for C2 as stated: after the reference-correction stage
boundary the cube obtained from `c2Ramp` violates
`err = sqrt(var_poisson + var_rnoise)` at its (unmasked) pixels: the error
still reflects the pre-correction `var_rnoise = 2` while the stored
`var_rnoise` is `2 * (1 + 1/12)`. -/
theorem C2_err_consistency_cex :
    ¬ errConsistent
      (ReferenceCorrectionCustomStep.process
        (CDSCustomStep.process c2Ramp oneMap oneMap)) := by
  intro h
  have hht : cdsHasTrans c2Ramp 0 0 = false := by decide
  have hdq : (ReferenceCorrectionCustomStep.process
      (CDSCustomStep.process c2Ramp oneMap oneMap)).dq 0 0 0 = 0 := by decide
  have h0 := h 0 (by decide) 0 (by decide) 0 (by decide) hdq
  have hng : cdsNgroup c2Ramp 0 0 = some 1 := by
    rw [cdsNgroup, hht]
    simp [c2Ramp]
  have hrate : cdsRate c2Ramp oneMap 0 0 0 = 0 := by
    rw [cdsRate, hht]
    simp [c2Ramp, oneMap]
  have hvp : (ReferenceCorrectionCustomStep.process
      (CDSCustomStep.process c2Ramp oneMap oneMap)).varp 0 0 0 = some 0 := by
    show fdiv (some (cdsRate c2Ramp oneMap 0 0 0)) (cdsNgroup c2Ramp 0 0) =
      some 0
    rw [hrate, hng]
    norm_num [fdiv]
  have hn1 : (CDSCustomStep.process c2Ramp oneMap oneMap).n1 = 12 := rfl
  have hlen : (refSamples (CDSCustomStep.process c2Ramp oneMap oneMap)
      0 0).length = 12 := by
    simp [refSamples, refRows, hn1]
  have hes : (ReferenceCorrectionCustomStep.process
      (CDSCustomStep.process c2Ramp oneMap oneMap)).errSq 0 0 0 =
      some 2 := by
    show fadd (fdiv (some (cdsRate c2Ramp oneMap 0 0 0)) (cdsNgroup c2Ramp 0 0))
      (fdiv (some (2 * oneMap 0 0 ^ 2))
        (fmul (cdsNgroup c2Ramp 0 0) (cdsNgroup c2Ramp 0 0))) = some 2
    rw [hrate, hng]
    norm_num [fadd, fdiv, fmul, oneMap]
  have hvr2 : (ReferenceCorrectionCustomStep.process
      (CDSCustomStep.process c2Ramp oneMap oneMap)).varr 0 0 0 =
      some (13 / 6) := by
    show fmul
      (fdiv (some (2 * oneMap 0 0 ^ 2))
        (fmul (cdsNgroup c2Ramp 0 0) (cdsNgroup c2Ramp 0 0)))
      (some (1 + 1 / ((refSamples (CDSCustomStep.process c2Ramp oneMap oneMap)
        0 0).length : ℚ))) = some (13 / 6)
    rw [hng, hlen]
    norm_num [fdiv, fmul, oneMap]
  rw [hes, hvp, hvr2] at h0
  norm_num [fadd] at h0

/-- A consistent 3-integration cube used by the C2 witness. -/
def wCube2 : RateCube where
  n0 := 3
  n1 := 2
  n2 := 2
  data := fun _ _ _ => 4
  dq := fun _ _ _ => 0
  varp := fun _ _ _ => some 1
  varr := fun _ _ _ => some 2
  errSq := fun _ _ _ => some 3
  ngroup := fun _ _ _ => some 1

/-- Witness for C2 (amended): on the concrete consistent cube `wCube2` the
reference-correction output carries the stale squared error
`var_poisson + var_rnoise` (pre-correction) while `var_rnoise` is scaled by
`1 + 1/sample_count`. -/
theorem C2_err_consistency_witness :
    errConsistent wCube2 ∧
    ((ReferenceCorrectionCustomStep.process wCube2).errSq 0 0 0 =
        fadd (wCube2.varp 0 0 0) (wCube2.varr 0 0 0) ∧
      (ReferenceCorrectionCustomStep.process wCube2).varr 0 0 0 =
        fmul (wCube2.varr 0 0 0)
          (some (1 + 1 / ((refSamples wCube2 0 0).length : ℚ)))) := by
  have hcons : errConsistent wCube2 := by
    intro i hi r hr k hk hdq
    show some (3 : ℚ) = fadd (some 1) (some 2)
    norm_num [fadd]
  exact ⟨hcons,
    C2_err_consistency_amended.2.2.2 wCube2 hcons 0 (by decide) 0 (by decide)
      0 (by decide) (by decide)⟩

/-- A clip outcome used by the C7 witness: only integration 2 is clipped. -/
def wClip : ℕ → ℕ → ℕ → Bool := fun i _ _ => i == 2

/-- A cube used by the C7 witness: integration 0 is pre-flagged SATURATED. -/
def wCube7 : RateCube where
  n0 := 3
  n1 := 1
  n2 := 1
  data := fun i _ _ => ((i : ℕ) : ℚ)
  dq := fun i _ _ => if i = 0 then SATURATED else 0
  varp := fun _ _ _ => some 1
  varr := fun _ _ _ => some 1
  errSq := fun _ _ _ => some 2
  ngroup := fun _ _ _ => some 1

/-- Witness for C7: at the pre-flagged, unclipped pixel of `wCube7` the XOR
rule fires (JUMP_DET | DO_NOT_USE is ORed in) and the pre-existing
SATURATED bit (bit 1) survives. -/
theorem C7_outlier_flag_update_witness :
    ((FlaggingCustomStep.process wClip wCube7).dq 0 0 0 =
      wCube7.dq 0 0 0 |||
        (if (0 < wCube7.dq 0 0 0) ≠ (wClip 0 0 0 = true) then
          JUMP_DET ||| DO_NOT_USE
         else 0)) ∧
    (wCube7.dq 0 0 0).testBit 1 = true ∧
    ((FlaggingCustomStep.process wClip wCube7).dq 0 0 0).testBit 1 = true :=
  ⟨(C7_outlier_flag_update wClip wCube7 0 0 0).1, by decide,
    (C7_outlier_flag_update wClip wCube7 0 0 0).2 1 (by decide)⟩
